import Mathlib

/-!
# Verification of the length-prefixed messaging protocol (JV91/rust_dev_course)

Shallow embedding of the client/server messaging code of lessons 13, 15 and 16:
the bincode message codec (`shared::MessageType`, `bincode::serialize` /
`bincode::deserialize` with bincode 1.x defaults: fixed-width little-endian
integers, enum discriminant as `u32`, `String`/`Vec<u8>` as a `u64` length
followed by the raw bytes), the framing layer of `shared::receive_message`
(4-byte big-endian length, then the payload), the lesson-15 server's accept
loop / `handle_client` / `receive_file`, and the client's input-line dispatch.

Bytes are modelled as `Nat` (values below 256 on the wire); a TCP stream that
the peer has closed is a finite `List Nat`, and `read_exact` of `n` bytes
fails when fewer than `n` bytes remain.  Rust `String`s travelling inside
messages are modelled by their UTF-8 byte sequences (`List Nat`); the decoder
does not re-check UTF-8 validity, which is sound here because every byte
sequence produced by encoding a real string is valid UTF-8.
-/

namespace RustDev

/-! ## Byte-level helpers -/

/-- Little-endian 4-byte encoding of a `u32` value (bincode fixed-int). -/
def u32LE (n : Nat) : List Nat :=
  [n % 256, n / 256 % 256, n / 65536 % 256, n / 16777216 % 256]

/-- Big-endian 4-byte encoding of a `u32` value (`u32::to_be_bytes`). -/
def u32BE (n : Nat) : List Nat :=
  [n / 16777216 % 256, n / 65536 % 256, n / 256 % 256, n % 256]

/-- Little-endian 8-byte encoding of a `u64` value (bincode fixed-int). -/
def u64LE (n : Nat) : List Nat :=
  [n % 256, n / 256 % 256, n / 65536 % 256, n / 16777216 % 256,
   n / 4294967296 % 256, n / 1099511627776 % 256,
   n / 281474976710656 % 256, n / 72057594037927936 % 256]

/-- Value of a 4-byte little-endian sequence (`u32::from_le_bytes`). -/
def u32LEval (b : List Nat) : Nat :=
  match b with
  | [b0, b1, b2, b3] => b0 + 256 * b1 + 65536 * b2 + 16777216 * b3
  | _ => 0

/-- Value of a 4-byte big-endian sequence (`u32::from_be_bytes`). -/
def u32BEval (b : List Nat) : Nat :=
  match b with
  | [b0, b1, b2, b3] => b3 + 256 * b2 + 65536 * b1 + 16777216 * b0
  | _ => 0

/-- Value of an 8-byte little-endian sequence (`u64::from_le_bytes`). -/
def u64LEval (b : List Nat) : Nat :=
  match b with
  | [b0, b1, b2, b3, b4, b5, b6, b7] =>
      b0 + 256 * b1 + 65536 * b2 + 16777216 * b3 + 4294967296 * b4 +
      1099511627776 * b5 + 281474976710656 * b6 + 72057594037927936 * b7
  | _ => 0

/-- `read_exact` of `n` bytes from a closed finite stream: succeeds with the
first `n` bytes and the remainder iff at least `n` bytes remain. -/
def readBytes (n : Nat) (s : List Nat) : Option (List Nat × List Nat) :=
  if n ≤ s.length then some (s.take n, s.drop n) else none

/-- Read a bincode `u64` (8 bytes little-endian) from the front of a stream. -/
def readU64 (s : List Nat) : Option (Nat × List Nat) :=
  (readBytes 8 s).map fun p => (u64LEval p.1, p.2)

theorem u32LEval_u32LE (n : Nat) : u32LEval (u32LE n) = n % 4294967296 := by
  simp only [u32LE, u32LEval]
  omega

theorem u32BEval_u32BE (n : Nat) : u32BEval (u32BE n) = n % 4294967296 := by
  simp only [u32BE, u32BEval]
  omega

theorem u64LEval_u64LE (n : Nat) :
    u64LEval (u64LE n) = n % 18446744073709551616 := by
  simp only [u64LE, u64LEval]
  omega

theorem readBytes_append (l r : List Nat) :
    readBytes l.length (l ++ r) = some (l, r) := by
  simp [readBytes, List.take_left, List.drop_left]

theorem readBytes_short {n : Nat} {s : List Nat} (h : s.length < n) :
    readBytes n s = none := by
  simp [readBytes]
  omega

theorem readU64_u64LE (n : Nat) (r : List Nat)
    (h : n < 18446744073709551616) : readU64 (u64LE n ++ r) = some (n, r) := by
  have hlen : (u64LE n).length = 8 := by simp [u64LE]
  have := readBytes_append (u64LE n) r
  rw [hlen] at this
  simp [readU64, this, u64LEval_u64LE, Nat.mod_eq_of_lt h]

/-! ## Message codec (`shared::MessageType` with bincode 1.x) -/

/-- `shared::MessageType`: the protocol's tagged message union.  Strings are
carried as their UTF-8 byte sequences. -/
inductive MessageType where
  | File (name : List Nat) (content : List Nat)
  | Image (content : List Nat)
  | Text (text : List Nat)
  | Quit
  deriving DecidableEq, Repr

/-- `bincode::serialize` of a `MessageType` (bincode 1.x defaults): a `u32`
little-endian variant discriminant in declaration order (File = 0, Image = 1,
Text = 2, Quit = 3), then the fields, strings and byte vectors written as a
`u64` little-endian length followed by the raw bytes. -/
def encodeMessage : MessageType → List Nat
  | .File name content =>
      u32LE 0 ++ u64LE name.length ++ name ++ u64LE content.length ++ content
  | .Image content => u32LE 1 ++ u64LE content.length ++ content
  | .Text text => u32LE 2 ++ u64LE text.length ++ text
  | .Quit => u32LE 3

/-- `bincode::deserialize` of a `MessageType`: reads the `u32` discriminant,
then the variant's fields; fails on an unknown discriminant or when the
buffer is too short for a declared field.  Trailing bytes are ignored, as by
`bincode::deserialize`. -/
def decodeMessage (s : List Nat) : Option MessageType :=
  (readBytes 4 s).bind fun t =>
    match u32LEval t.1 with
    | 0 =>
        (readU64 t.2).bind fun n1 =>
        (readBytes n1.1 n1.2).bind fun name =>
        (readU64 name.2).bind fun n2 =>
        (readBytes n2.1 n2.2).map fun content => .File name.1 content.1
    | 1 =>
        (readU64 t.2).bind fun n =>
        (readBytes n.1 n.2).map fun content => .Image content.1
    | 2 =>
        (readU64 t.2).bind fun n =>
        (readBytes n.1 n.2).map fun text => .Text text.1
    | 3 => some .Quit
    | _ => none

/-- A `MessageType` value constructible in the Rust program: every `String` /
`Vec<u8>` it carries has length below `2 ^ 64`. -/
def wfMessage : MessageType → Prop
  | .File name content =>
      name.length < 18446744073709551616 ∧
      content.length < 18446744073709551616
  | .Image content => content.length < 18446744073709551616
  | .Text text => text.length < 18446744073709551616
  | .Quit => True

instance : DecidablePred wfMessage := fun m => by
  cases m <;> simp [wfMessage] <;> infer_instance

theorem readBytes_of_append (n : Nat) (l r : List Nat) (h : l.length = n) :
    readBytes n (l ++ r) = some (l, r) := by
  subst h; exact readBytes_append l r

theorem readBytes_self (l : List Nat) : readBytes l.length l = some (l, []) := by
  simp [readBytes]

theorem decode_encode (m : MessageType) (h : wfMessage m) :
    decodeMessage (encodeMessage m) = some m := by
  cases m with
  | File name content =>
      obtain ⟨h1, h2⟩ := h
      have e4 : (u32LE 0).length = 4 := by simp [u32LE]
      simp only [encodeMessage, decodeMessage, List.append_assoc]
      rw [readBytes_of_append 4 (u32LE 0) _ e4]
      simp only [Option.bind_eq_bind, Option.some_bind, u32LEval_u32LE]
      rw [readU64_u64LE _ _ h1]
      simp only [Option.some_bind]
      rw [readBytes_of_append name.length name _ rfl]
      simp only [Option.some_bind]
      rw [readU64_u64LE _ _ h2]
      simp only [Option.some_bind]
      rw [readBytes_self content]
      rfl
  | Image content =>
      have e4 : (u32LE 1).length = 4 := by simp [u32LE]
      simp only [encodeMessage, decodeMessage, List.append_assoc]
      rw [readBytes_of_append 4 (u32LE 1) _ e4]
      simp only [Option.bind_eq_bind, Option.some_bind, u32LEval_u32LE]
      rw [readU64_u64LE _ _ h]
      simp only [Option.some_bind]
      rw [readBytes_self content]
      rfl
  | Text text =>
      have e4 : (u32LE 2).length = 4 := by simp [u32LE]
      simp only [encodeMessage, decodeMessage, List.append_assoc]
      rw [readBytes_of_append 4 (u32LE 2) _ e4]
      simp only [Option.bind_eq_bind, Option.some_bind, u32LEval_u32LE]
      rw [readU64_u64LE _ _ h]
      simp only [Option.some_bind]
      rw [readBytes_self text]
      rfl
  | Quit =>
      have e4 : (u32LE 3).length = 4 := by simp [u32LE]
      simp only [encodeMessage, decodeMessage]
      rw [show u32LE 3 = u32LE 3 ++ [] by simp, readBytes_of_append 4 _ _ e4]
      simp [u32LEval_u32LE]

/-! ## Framing layer (`shared::receive_message`, `shared::send_message`) -/

/-- The bytes `send_message` puts on the wire: exactly the bincode
serialization of the message, written with `write_all`.  Note: the source
writes **no** length prefix before the payload. -/
def sendMessageBytes (m : MessageType) : List Nat := encodeMessage m

/-- The framing part of `receive_message`: `read_exact` 4 bytes, interpret
them as a big-endian `u32` length, return `None` when the declared length is
zero, then `read_exact` that many payload bytes.  Yields the payload and the
unread remainder of the stream. -/
def readFrame (s : List Nat) : Option (List Nat × List Nat) :=
  (readBytes 4 s).bind fun t =>
    let len := u32BEval t.1
    if len = 0 then none
    else readBytes len t.2

/-- `shared::receive_message`: read one frame, then `bincode::deserialize`
the payload; any failure yields `None`. -/
def receiveMessage (s : List Nat) : Option MessageType :=
  (readFrame s).bind fun p => decodeMessage p.1

/-- A correctly framed message as the spec's `write_frame` would emit it:
the 4-byte big-endian payload length, then the payload.  (No function in the
source writes this prefix; it is what `receive_message` expects.) -/
def frameBytes (payload : List Nat) : List Nat := u32BE payload.length ++ payload

theorem readFrame_frameBytes (payload : List Nat) (h0 : 0 < payload.length)
    (h32 : payload.length < 4294967296) :
    readFrame (frameBytes payload) = some (payload, []) := by
  have e4 : (u32BE payload.length).length = 4 := by simp [u32BE]
  simp only [readFrame, frameBytes]
  rw [readBytes_of_append 4 _ _ e4]
  simp only [Option.bind_eq_bind, Option.some_bind, u32BEval_u32BE,
    Nat.mod_eq_of_lt h32]
  rw [if_neg (by omega)]
  rw [show payload = payload ++ [] by simp, readBytes_of_append _ _ _ (by simp)]
  simp

theorem receiveMessage_frame_encode (m : MessageType) (h : wfMessage m)
    (h32 : (encodeMessage m).length < 4294967296) :
    receiveMessage (frameBytes (encodeMessage m)) = some m := by
  have h0 : 0 < (encodeMessage m).length := by
    cases m <;> simp [encodeMessage, u32LE]
  rw [receiveMessage, readFrame_frameBytes _ h0 h32]
  simp [decode_encode m h]

/-! ## UTF-8 bytes of a string (for `String` fields travelling in messages) -/

/-- UTF-8 encoding of one scalar value (what Rust writes for each `char`). -/
def charUtf8 (c : Char) : List Nat :=
  let n := c.toNat
  if n < 128 then [n]
  else if n < 2048 then [192 + n / 64, 128 + n % 64]
  else if n < 65536 then [224 + n / 4096, 128 + n / 64 % 64, 128 + n % 64]
  else [240 + n / 262144, 128 + n / 4096 % 64, 128 + n / 64 % 64, 128 + n % 64]

/-- The UTF-8 byte sequence of a string, as Rust's `String` stores it. -/
def strBytes (s : String) : List Nat := s.data.flatMap charUtf8

/-! ## Lesson-15 server (`server/src/main.rs`)

`Server::start` binds a listener, then loops over incoming connections:
it inserts the peer address into the `clients` map, calls `handle_client`
on the connection, logs (and otherwise ignores) a handler error, and goes
back to accepting.  `handle_client` calls `receive_message` **once**: on
`Some` it dispatches on the variant (`File`/`Image` saved via
`receive_file`, `Text` logged, `Quit` removes the peer's registry entry);
on `None` it logs an error; either way it returns.

The handler's externally visible behaviour is modelled as a list of
effects; the wall clock (`SystemTime::now`) is a parameter `ts`; the
registry is a duplicate-free list of peer addresses (HashMap key-set
semantics). -/

/-- One observable side effect of the lesson-15 server handler. -/
inductive ServerEffect where
  | savedFile (directory : String) (filename : List Nat) (content : List Nat)
  | loggedImageReceived
  | loggedText (text : List Nat)
  | clientDisconnected
  | receiveError
  deriving DecidableEq, Repr

/-- `HashMap::insert` on the registry's key set. -/
def regInsert (addr : Nat) (reg : List Nat) : List Nat :=
  if addr ∈ reg then reg else reg ++ [addr]

/-- `HashMap::remove` on the registry's key set. -/
def regRemove (addr : Nat) (reg : List Nat) : List Nat :=
  reg.filter fun a => a ≠ addr

/-- The filepath `receive_file` builds:
`format!("{}{}_{}", directory, timestamp, filename)`. -/
def receiveFilePath (directory : String) (timestamp : Nat)
    (filename : String) : String :=
  directory ++ toString timestamp ++ "_" ++ filename

/-- `Server::handle_client` of lesson 15: one `receive_message`, one
dispatch, then return.  Yields the emitted effects and the updated
registry. -/
def handleClient (addr : Nat) (stream : List Nat)
    (reg : List Nat) : List ServerEffect × List Nat :=
  match receiveMessage stream with
  | some (.File name content) =>
      ([.savedFile "../files/" name content], reg)
  | some (.Image content) =>
      ([.loggedImageReceived,
        .savedFile "../images/" (strBytes "received_image") content], reg)
  | some (.Text t) => ([.loggedText t], reg)
  | some .Quit => ([.clientDisconnected], regRemove addr reg)
  | none => ([.receiveError], reg)

/-- One accepted connection: its peer address and the bytes it sends
before closing. -/
structure Conn where
  addr : Nat
  stream : List Nat

/-- The lesson-15 accept loop over a finite schedule of connections:
insert the peer address, run `handle_client`, continue accepting (handler
errors are logged, never stop the loop).  Returns the per-connection
effects and the final registry. -/
def serverRun (reg : List Nat) :
    List Conn → List (Nat × List ServerEffect) × List Nat
  | [] => ([], reg)
  | c :: cs =>
      let reg1 := regInsert c.addr reg
      let step := handleClient c.addr c.stream reg1
      let rest := serverRun step.2 cs
      ((c.addr, step.1) :: rest.1, rest.2)

/-! ## Client input dispatch (lessons 15 and 16, `client/src/main.rs`)

Each loop iteration reads a line, trims it, and matches: the exact text
`".quit"` sends `Quit` and breaks; otherwise a `starts_with(".file")` line
is a file command with path `input.trim_start_matches(".file").trim()`, a
`starts_with(".image")` line is an image command likewise, and anything
else is sent as `Text(input)`.  In lesson 16 the file is read inline and a
read failure propagates with `?` out of `main`; the image branch behaves
the same in both lessons. -/

/-- Rust `char::is_whitespace`, restricted to the ASCII whitespace the
inputs here can contain. -/
def isWs (c : Char) : Bool :=
  c = ' ' ∨ c = '\t' ∨ c = '\n' ∨ c = '\r'

/-- Rust `str::trim` (remove leading and trailing whitespace). -/
def rustTrim (s : String) : String :=
  ⟨((s.data.dropWhile isWs).reverse.dropWhile isWs).reverse⟩

/-- Rust `str::starts_with` for a string pattern. -/
def rustStartsWith (s pat : String) : Bool :=
  pat.data.isPrefixOf s.data

/-- Fuel-driven core of `str::trim_start_matches`: repeatedly strip the
pattern from the front while it matches.  `fuel` bounds the number of
strips; `l.length` strips always suffice for a non-empty pattern. -/
def stripRepeatAux (pat : List Char) : Nat → List Char → List Char
  | 0, l => l
  | fuel + 1, l =>
      if pat ≠ [] ∧ pat.isPrefixOf l then
        stripRepeatAux pat fuel (l.drop pat.length)
      else l

/-- Rust `str::trim_start_matches(pat)`: remove every leading repetition
of `pat`. -/
def trimStartMatchesStr (s pat : String) : String :=
  ⟨stripRepeatAux pat.data s.data.length s.data⟩

/-- What one trimmed input line is turned into by the client's `match`. -/
inductive Command where
  | quitCmd
  | fileCmd (path : String)
  | imageCmd (path : String)
  | textCmd (text : String)
  deriving DecidableEq, Repr

/-- The client's dispatch on one raw input line (identical in lessons 15
and 16). -/
def parseCommand (raw : String) : Command :=
  let input := rustTrim raw
  if input = ".quit" then .quitCmd
  else if rustStartsWith input ".file" then
    .fileCmd (rustTrim (trimStartMatchesStr input ".file"))
  else if rustStartsWith input ".image" then
    .imageCmd (rustTrim (trimStartMatchesStr input ".image"))
  else .textCmd input

/-- Outcome of the lesson-16 client loop on a finite list of input lines. -/
inductive ClientOutcome where
  | errored (sent : List MessageType)
  | finished (sent : List MessageType)
  | exhausted (sent : List MessageType)
  deriving DecidableEq, Repr

/-- The lesson-16 client loop.  `fs`/`imgs` model the filesystem: the file
bytes readable at a path (`none` = open/read/convert fails).  A failed
file or image read propagates with `?` out of `main` (outcome
`errored`); `.quit` sends `Quit` and breaks (`finished`); the model stops
with `exhausted` when the given input lines run out. -/
def clientRun (fs imgs : String → Option (List Nat))
    (sent : List MessageType) : List String → ClientOutcome
  | [] => .exhausted sent
  | line :: rest =>
      match parseCommand line with
      | .quitCmd => .finished (sent ++ [.Quit])
      | .fileCmd path =>
          match fs path with
          | none => .errored sent
          | some content =>
              clientRun fs imgs (sent ++ [.File (strBytes path) content]) rest
      | .imageCmd path =>
          match imgs path with
          | none => .errored sent
          | some content =>
              clientRun fs imgs (sent ++ [.Image content]) rest
      | .textCmd t =>
          clientRun fs imgs (sent ++ [.Text (strBytes t)]) rest

/-! ## Bind-address resolution (lesson-15 `start`, lesson-13 `main`/`start`) -/

/-- The address string lesson-15's `Server::start` passes to
`TcpListener::bind`:
`Some("0.0.0.0") → "0.0.0.0:11111"`, `Some(addr) → addr`,
`None → "localhost:11111"`. -/
def lesson15BindTarget : Option String → String
  | some a => if a = "0.0.0.0" then "0.0.0.0:11111" else a
  | none => "localhost:11111"

/-- The address string lesson-13's `Server::start` passes to
`TcpListener::bind`: `Some(addr) → addr`, `None → "0.0.0.0:0"`. -/
def lesson13BindTarget : Option String → String
  | some a => a
  | none => "0.0.0.0:0"

/-- Lesson-13 `main`'s argument parsing (`args` includes the program
name): one extra arg must be the literal `"0.0.0.0"`; two extra args are
`host port`; anything else prints usage and exits (`none`). -/
def lesson13ParseArgs : List String → Option (Option String)
  | [_] => some none
  | [_, a] => if a = "0.0.0.0" then some (some "0.0.0.0:11111") else none
  | [_, h, p] => some (some (h ++ ":" ++ p))
  | _ => none

/-! ## Helper lemmas about the client dispatch -/

theorem ne_quit_of_startsWith_file (s : String)
    (h : rustStartsWith s ".file" = true) : s ≠ ".quit" := by
  intro he
  subst he
  revert h
  decide

theorem ne_quit_of_startsWith_image (s : String)
    (h : rustStartsWith s ".image" = true) : s ≠ ".quit" := by
  intro he
  subst he
  revert h
  decide

theorem not_startsWith_file_of_image (s : String)
    (h : rustStartsWith s ".image" = true) :
    rustStartsWith s ".file" = false := by
  rcases s with ⟨data⟩
  rw [rustStartsWith, List.isPrefixOf_iff_prefix] at h
  rw [rustStartsWith]
  rw [Bool.eq_false_iff, Ne, List.isPrefixOf_iff_prefix]
  intro hb
  obtain ⟨t, ht⟩ := h
  obtain ⟨u, hu⟩ := hb
  rw [← hu] at ht
  have himg : (".image" : String).data = ['.', 'i', 'm', 'a', 'g', 'e'] := rfl
  have hfil : (".file" : String).data = ['.', 'f', 'i', 'l', 'e'] := rfl
  rw [himg, hfil] at ht
  simp only [List.cons_append, List.cons.injEq] at ht
  exact absurd ht.2.1 (by decide)

/-! ## Claim theorems -/

/-- Claim C1 (code bug).  The claimed frame round-trip fails on the code:
`send_message` writes only the bincode serialization with no 4-byte
big-endian length prefix, while `receive_message` demands one.  At the
concrete input `Quit`, the sender emits exactly the 4 bytes `[3, 0, 0, 0]`;
the receiver misreads them as a big-endian length (50331648) and returns no
message.  Prefixing the missing length — what the claim says the sender
writes — makes the very same receiver return the message, confirming the
claim's framing as the intent. -/
theorem frame_round_trip_fails_without_length :
    sendMessageBytes .Quit = [3, 0, 0, 0] ∧
    receiveMessage (sendMessageBytes .Quit) = none ∧
    receiveMessage (frameBytes (sendMessageBytes .Quit)) = some .Quit := by
  refine ⟨by decide, by decide, by decide⟩

/-- Claim C2 (confirmed).  Codec round-trip: for every `MessageType` value
constructible in the program (each carried string / byte vector shorter
than `2 ^ 64`), bincode deserialization of its bincode serialization
reproduces the value, equal in all fields. -/
theorem codec_round_trip (m : MessageType) (h : wfMessage m) :
    decodeMessage (encodeMessage m) = some m :=
  decode_encode m h

/-- Witness for C2 at a concrete `File` message. -/
theorem codec_round_trip_witness :
    wfMessage (.File [114, 46, 116] [97, 98, 99]) ∧
    decodeMessage (encodeMessage (.File [114, 46, 116] [97, 98, 99])) =
      some (.File [114, 46, 116] [97, 98, 99]) :=
  ⟨by decide, codec_round_trip (.File [114, 46, 116] [97, 98, 99]) (by decide)⟩

/-- Claim C4 (confirmed).  Truncation detection: when the 4-byte prefix
declares `N > 0` but the stream ends after fewer than `N` payload bytes,
both the frame read and `receive_message` yield nothing — never a silently
short payload. -/
theorem truncated_frame_rejected (N : Nat) (payload : List Nat)
    (h0 : 0 < N) (h32 : N < 4294967296) (hk : payload.length < N) :
    readFrame (u32BE N ++ payload) = none ∧
    receiveMessage (u32BE N ++ payload) = none := by
  have e4 : (u32BE N).length = 4 := by simp [u32BE]
  have hrf : readFrame (u32BE N ++ payload) = none := by
    simp only [readFrame]
    rw [readBytes_of_append 4 _ _ e4]
    simp only [Option.bind_eq_bind, Option.some_bind, u32BEval_u32BE,
      Nat.mod_eq_of_lt h32]
    rw [if_neg (by omega), readBytes_short hk]
  exact ⟨hrf, by simp [receiveMessage, hrf]⟩

/-- Witness for C4: a frame declaring 5 bytes but delivering only 3. -/
theorem truncated_frame_rejected_witness :
    0 < 5 ∧ ([1, 2, 3] : List Nat).length < 5 ∧
    receiveMessage (u32BE 5 ++ [1, 2, 3]) = none :=
  ⟨by decide, by decide,
    (truncated_frame_rejected 5 [1, 2, 3] (by decide) (by decide)
      (by decide)).2⟩

/-- Counterexample to claim C3.  A connection whose stream carries a frame
with an undecodable payload (`[99, 0, 0, 0]`, an unknown discriminant)
followed by a well-formed `Text "hi"` frame: the handler logs the receive
error and returns — the subsequent well-formed frame of the same
connection is never processed, contrary to the claim. -/
theorem malformed_frame_stops_handler :
    handleClient 1
        (frameBytes [99, 0, 0, 0] ++
          frameBytes (encodeMessage (.Text [104, 105]))) [] =
      ([.receiveError], []) ∧
    ServerEffect.loggedText [104, 105] ∉
      (handleClient 1
        (frameBytes [99, 0, 0, 0] ++
          frameBytes (encodeMessage (.Text [104, 105]))) []).1 := by
  refine ⟨by decide, by decide⟩

/-- Claim C3 as amended.  On a stream whose first message cannot be
received (frame error or decode error), the lesson-15 handler logs the
error, leaves the registry unchanged and returns normally; it reads no
further frame from that connection, and the accept loop goes on to serve
the remaining connections exactly as before. -/
theorem malformed_frame_nonfatal (a : Nat) (s : List Nat) (reg : List Nat)
    (cs : List Conn) (h : receiveMessage s = none) :
    handleClient a s reg = ([.receiveError], reg) ∧
    serverRun reg (⟨a, s⟩ :: cs) =
      ((a, [ServerEffect.receiveError]) ::
          (serverRun (regInsert a reg) cs).1,
        (serverRun (regInsert a reg) cs).2) := by
  have hh : ∀ r : List Nat, handleClient a s r = ([.receiveError], r) := by
    intro r
    simp [handleClient, h]
  exact ⟨hh reg, by simp only [serverRun, hh]⟩

/-- Witness for C3 as amended: an undecodable frame followed by a valid
one, with one further connection in the accept queue. -/
theorem malformed_frame_nonfatal_witness :
    receiveMessage (frameBytes [99, 0, 0, 0] ++
        frameBytes (encodeMessage (.Text [104, 105]))) = none ∧
    handleClient 1
        (frameBytes [99, 0, 0, 0] ++
          frameBytes (encodeMessage (.Text [104, 105]))) [] =
      ([.receiveError], []) :=
  ⟨by decide,
    (malformed_frame_nonfatal 1
        (frameBytes [99, 0, 0, 0] ++
          frameBytes (encodeMessage (.Text [104, 105]))) []
        [⟨2, frameBytes (encodeMessage .Quit)⟩] (by decide)).1⟩

/-- Counterexample to claim C5.  A frame declaring length 0 followed by a
well-formed `Text "yo"` frame on the same connection: the handler logs a
receive error and returns; it does not keep waiting for — nor process —
the next frame, contrary to the claim. -/
theorem zero_frame_stops_handler :
    handleClient 7
        (u32BE 0 ++ frameBytes (encodeMessage (.Text [121, 111]))) [] =
      ([.receiveError], []) ∧
    ServerEffect.loggedText [121, 111] ∉
      (handleClient 7
        (u32BE 0 ++ frameBytes (encodeMessage (.Text [121, 111]))) []).1 := by
  refine ⟨by decide, by decide⟩

/-- Claim C5 as amended.  A declared length of zero makes
`receive_message` return no message without reading a single payload byte
(whatever follows the prefix); the lesson-15 handler then logs a receive
error and returns normally, leaving the registry unchanged, and the accept
loop proceeds to the remaining connections — but the handler does not wait
for another frame on that connection. -/
theorem zero_length_frame_rejected (rest : List Nat) (a : Nat)
    (reg : List Nat) (cs : List Conn) :
    readFrame (u32BE 0 ++ rest) = none ∧
    handleClient a (u32BE 0 ++ rest) reg = ([.receiveError], reg) ∧
    serverRun reg (⟨a, u32BE 0 ++ rest⟩ :: cs) =
      ((a, [ServerEffect.receiveError]) ::
          (serverRun (regInsert a reg) cs).1,
        (serverRun (regInsert a reg) cs).2) := by
  have e4 : (u32BE 0).length = 4 := by simp [u32BE]
  have hrf : readFrame (u32BE 0 ++ rest) = none := by
    simp only [readFrame]
    rw [readBytes_of_append 4 _ _ e4]
    simp [u32BEval_u32BE]
  have hrm : receiveMessage (u32BE 0 ++ rest) = none := by
    simp [receiveMessage, hrf]
  have hh : ∀ r : List Nat,
      handleClient a (u32BE 0 ++ rest) r = ([.receiveError], r) := by
    intro r
    simp [handleClient, hrm]
  exact ⟨hrf, hh reg, by simp only [serverRun, hh]⟩

/-- Counterexample to claim C6.  With no file readable, the input line
`".file nope.txt"` followed by `"hello"`: the client loop ends with a
propagated error after sending nothing — the failure is not skipped and
the next input line `"hello"` is never reached, contrary to the claim. -/
theorem file_error_kills_client :
    clientRun (fun _ => none) (fun _ => none) []
      [".file nope.txt", "hello"] = .errored [] := by
  decide

/-- Claim C6 as amended.  A file or image read failure propagates with
`?` out of the client's `main`: the loop terminates at once with an error,
the failed message is not sent, and no subsequent input line is processed.
-/
theorem file_error_aborts_loop (fs imgs : String → Option (List Nat))
    (sent : List MessageType) (line : String) (path : String)
    (rest : List String) :
    (parseCommand line = .fileCmd path → fs path = none →
      clientRun fs imgs sent (line :: rest) = .errored sent) ∧
    (parseCommand line = .imageCmd path → imgs path = none →
      clientRun fs imgs sent (line :: rest) = .errored sent) := by
  constructor
  · intro hp hf
    simp [clientRun, hp, hf]
  · intro hp hf
    simp [clientRun, hp, hf]

/-- Witness for C6 as amended, at the line `".file nope.txt"`. -/
theorem file_error_aborts_loop_witness :
    parseCommand ".file nope.txt" = .fileCmd "nope.txt" ∧
    clientRun (fun _ => none) (fun _ => none) []
      [".file nope.txt", "hello"] = .errored [] :=
  ⟨by decide,
    (file_error_aborts_loop (fun _ => none) (fun _ => none) []
      ".file nope.txt" "nope.txt" ["hello"]).1 (by decide) rfl⟩

/-- Counterexample to claim C7.  One client connects, sends a well-formed
`Text` message and closes the connection; its registry entry is never
removed — the final registry still holds the peer address, contrary to
the claim that closing the connection removes the entry. -/
theorem closed_connection_leaves_stale_entry :
    (serverRun [] [⟨5, frameBytes (encodeMessage (.Text [97]))⟩]).2 =
      [5] := by
  decide

/-- Claim C7 as amended.  Every accepted connection inserts its peer
address into the registry, and the handler removes the entry only when it
receives `Quit`; a connection that closes without `Quit` leaves a stale
entry.  When every client's message is received as `Quit`, the registry
ends empty. -/
theorem registry_empty_after_quits (conns : List Conn)
    (h : ∀ c ∈ conns, receiveMessage c.stream = some .Quit) :
    (serverRun [] conns).2 = [] := by
  induction conns with
  | nil => rfl
  | cons c cs ih =>
      have hc := h c (List.mem_cons_self c cs)
      have hcs : ∀ x ∈ cs, receiveMessage x.stream = some .Quit :=
        fun x hx => h x (List.mem_cons_of_mem _ hx)
      simp only [serverRun, handleClient, hc]
      simpa [regInsert, regRemove] using ih hcs

/-- Witness for C7 as amended: two clients, each sending one framed
`Quit`, leave the registry empty. -/
theorem registry_empty_after_quits_witness :
    receiveMessage (frameBytes (encodeMessage .Quit)) = some .Quit ∧
    (serverRun [] [⟨1, frameBytes (encodeMessage .Quit)⟩,
        ⟨2, frameBytes (encodeMessage .Quit)⟩]).2 = [] :=
  ⟨by decide,
    registry_empty_after_quits
      [⟨1, frameBytes (encodeMessage .Quit)⟩,
        ⟨2, frameBytes (encodeMessage .Quit)⟩]
      (by decide)⟩

/-- Counterexample to claim C8.  The server saves under `../files/` and
`../images/` — sibling directories of the working directory — not under
`./files/` and `./images/` as claimed: at timestamp 1000 a received
`report.txt` goes to `../files/1000_report.txt`. -/
theorem file_saved_under_parent_directory :
    handleClient 1
        (frameBytes (encodeMessage
          (.File (strBytes "report.txt") [97, 98, 99]))) [] =
      ([.savedFile "../files/" (strBytes "report.txt") [97, 98, 99]], []) ∧
    receiveFilePath "../files/" 1000 "report.txt" =
      "../files/1000_report.txt" ∧
    "../files/1000_report.txt" ≠ "./files/1000_report.txt" := by
  refine ⟨by decide, by decide, by decide⟩

/-- Claim C8 as amended.  On a framed `File(name, bytes)` the lesson-15
server saves exactly `bytes` under directory `../files/` with the
client-supplied name; on a framed `Image(bytes)` it logs the image and
saves exactly `bytes` under `../images/` with name `received_image`; the
path `receive_file` builds is `<directory><unix-timestamp>_<filename>`.
(The hypotheses say the serialized messages fit in a `u32` frame.) -/
theorem persisted_file_paths (a ts : Nat) (reg : List Nat)
    (name content : List Nat)
    (hf : (encodeMessage (.File name content)).length < 4294967296)
    (hi : (encodeMessage (.Image content)).length < 4294967296) :
    handleClient a (frameBytes (encodeMessage (.File name content))) reg =
      ([.savedFile "../files/" name content], reg) ∧
    handleClient a (frameBytes (encodeMessage (.Image content))) reg =
      ([.loggedImageReceived,
        .savedFile "../images/" (strBytes "received_image") content], reg) ∧
    (∀ d f, receiveFilePath d ts f = d ++ toString ts ++ "_" ++ f) := by
  have hlf : (encodeMessage (.File name content)).length =
      20 + name.length + content.length := by
    simp [encodeMessage, u32LE, u64LE]
    omega
  have hli : (encodeMessage (.Image content)).length =
      12 + content.length := by
    simp [encodeMessage, u32LE, u64LE]
    omega
  have hwf : wfMessage (.File name content) := by
    constructor <;> omega
  have hwi : wfMessage (.Image content) := by
    show content.length < 18446744073709551616
    omega
  refine ⟨?_, ?_, fun d f => rfl⟩
  · rw [handleClient, receiveMessage_frame_encode _ hwf hf]
  · rw [handleClient, receiveMessage_frame_encode _ hwi hi]

/-- Witness for C8 as amended at a concrete `File` and `Image` payload. -/
theorem persisted_file_paths_witness :
    handleClient 1
        (frameBytes (encodeMessage
          (.File (strBytes "report.txt") [97, 98, 99]))) [9] =
      ([.savedFile "../files/" (strBytes "report.txt") [97, 98, 99]], [9]) ∧
    handleClient 1 (frameBytes (encodeMessage (.Image [7, 8]))) [9] =
      ([.loggedImageReceived,
        .savedFile "../images/" (strBytes "received_image") [7, 8]], [9]) :=
  ⟨(persisted_file_paths 1 0 [9] (strBytes "report.txt") [97, 98, 99]
      (by decide) (by decide)).1,
    (persisted_file_paths 1 0 [9] (strBytes "report.txt") [7, 8]
      (by decide) (by decide)).2.1⟩

/-- Counterexample to claim C9.  Called with no bind address, lesson-15's
`start` binds `localhost:11111` — the fixed default port on the loopback
interface, not an ephemeral port on all interfaces (`0.0.0.0:0`) as the
claim's leading assertion says. -/
theorem default_bind_is_localhost :
    lesson15BindTarget none = "localhost:11111" ∧
    "localhost:11111" ≠ "0.0.0.0:0" := by
  refine ⟨rfl, by decide⟩

/-- Claim C9 as amended.  Lesson-15's `start` defaults to
`localhost:11111` when no address is given, maps the special literal
`"0.0.0.0"` to `0.0.0.0:11111`, and passes any other given address
through; lesson-13's `start` is the one that defaults to an ephemeral
port on all interfaces (`0.0.0.0:0`), while its `main` maps the single
argument `"0.0.0.0"` to `0.0.0.0:11111` and two arguments to
`host:port`. -/
theorem bind_address_resolution :
    lesson15BindTarget none = "localhost:11111" ∧
    lesson15BindTarget (some "0.0.0.0") = "0.0.0.0:11111" ∧
    (∀ a : String, a ≠ "0.0.0.0" → lesson15BindTarget (some a) = a) ∧
    lesson13BindTarget none = "0.0.0.0:0" ∧
    lesson13ParseArgs ["server", "0.0.0.0"] = some (some "0.0.0.0:11111") ∧
    (∀ h p : String, lesson13ParseArgs ["server", h, p] =
      some (some (h ++ ":" ++ p))) := by
  refine ⟨rfl, by decide, ?_, rfl, by decide, fun h p => rfl⟩
  intro a ha
  simp [lesson15BindTarget, ha]

/-- Witness for C9 as amended at the explicit address `127.0.0.1:9000`. -/
theorem bind_address_resolution_witness :
    lesson15BindTarget (some "127.0.0.1:9000") = "127.0.0.1:9000" :=
  bind_address_resolution.2.2.1 "127.0.0.1:9000" (by decide)

/-- Claim C10 (confirmed).  After trimming, only the exact line `".quit"`
becomes `Quit` (so `".quit now"` is sent as `Text`); every line whose
trimmed text starts with `".file"` — even with no separating space, as in
`".filex"` — is a file command whose path is the line with every leading
repetition of `".file"` removed and then trimmed, never a `Text`; and the
same rule applied to `".image"` (shown both in general and at
`".image.imagey"`, where both leading repetitions are removed). -/
theorem client_dispatch_edge_cases :
    (∀ raw : String, parseCommand raw = .quitCmd ↔ rustTrim raw = ".quit") ∧
    parseCommand ".quit now" = .textCmd ".quit now" ∧
    (∀ raw : String, rustStartsWith (rustTrim raw) ".file" = true →
      parseCommand raw =
        .fileCmd (rustTrim (trimStartMatchesStr (rustTrim raw) ".file"))) ∧
    parseCommand ".filex" = .fileCmd "x" ∧
    (∀ raw : String, rustStartsWith (rustTrim raw) ".image" = true →
      parseCommand raw =
        .imageCmd (rustTrim (trimStartMatchesStr (rustTrim raw) ".image"))) ∧
    parseCommand ".image.imagey" = .imageCmd "y" := by
  refine ⟨?_, by decide, ?_, by decide, ?_, by decide⟩
  · intro raw
    constructor
    · intro h
      by_cases hq : rustTrim raw = ".quit"
      · exact hq
      · exfalso
        simp only [parseCommand] at h
        rw [if_neg hq] at h
        split at h
        · exact Command.noConfusion h
        · split at h
          · exact Command.noConfusion h
          · exact Command.noConfusion h
    · intro h
      simp [parseCommand, h]
  · intro raw h
    have hq : rustTrim raw ≠ ".quit" := ne_quit_of_startsWith_file _ h
    simp only [parseCommand]
    rw [if_neg hq, if_pos h]
  · intro raw h
    have hq : rustTrim raw ≠ ".quit" := ne_quit_of_startsWith_image _ h
    have hf := not_startsWith_file_of_image _ h
    simp only [parseCommand]
    rw [if_neg hq, if_neg (by simp [hf]), if_pos h]

/-- Witness for C10 at the line `" .filedata "`: trimmed, it starts with
`".file"` without a separating space and is parsed as a file command. -/
theorem client_dispatch_edge_cases_witness :
    rustStartsWith (rustTrim " .filedata ") ".file" = true ∧
    parseCommand " .filedata " =
      .fileCmd (rustTrim (trimStartMatchesStr (rustTrim " .filedata ")
        ".file")) :=
  ⟨by decide, client_dispatch_edge_cases.2.2.1 " .filedata " (by decide)⟩

end RustDev
